import Mathlib

/-!
# Verification of the `GptService` conversation session (yabble)

Shallow embedding of `GptService` (src: the streaming completion wrapper).
JavaScript strings are modelled as `List Char`; `String.prototype.trim` and
`slice(-1)` are modelled explicitly.  The streaming provider is modelled as a
list of `Attempt`s, one per iteration of the retry loop actually executed:
each attempt yields a list of chunks and then either completes normally
(`failure = none`) or raises (`failure = some e`).  Events emitted via the
`EventEmitter` are collected in an ordered list; backoff sleeps are collected
as a list of millisecond durations.
-/

namespace Yabble

/-- A JavaScript string, modelled as its list of characters. -/
abbrev JStr := List Char

/-- Model of `String.prototype.trim`: strip whitespace from both ends. -/
def jsTrim (l : JStr) : JStr :=
  ((l.dropWhile Char.isWhitespace).reverse.dropWhile Char.isWhitespace).reverse

/-- Model of `s.trim().slice(-1) === "•"`: the last character of the trimmed
string is the bullet (for an empty trimmed string, `slice(-1)` is `""`,
which is not `"•"`). -/
def boundaryHit (s : JStr) : Bool :=
  (jsTrim s).getLast? == some '•'

/-- One `{role, content}` message of the `userContext` transcript. -/
structure Turn where
  role : String
  content : JStr
deriving DecidableEq, Repr

/-- One chunk of the streaming response: `chunk.choices[0]?.delta?.content || ""`
and `chunk.choices[0].finish_reason`. -/
structure Chunk where
  content : JStr
  finish : Option String
deriving DecidableEq, Repr

/-- Payload of a `gptreply` event (lines 82–90 / 125–134 of the source). -/
structure GptReply where
  partialResponseIndex : Nat
  partialResponse : JStr
  callSid : Option String
deriving DecidableEq, Repr

/-- An event emitted by the service: `gptreply` (with the interaction count as
second emit argument) or `error` (errors are modelled as opaque strings). -/
inductive Event where
  | gptreply (r : GptReply) (interactionCount : Nat)
  | error (e : String)
deriving DecidableEq, Repr

/-- State accumulated by the `for await` chunk loop (lines 70–94):
`completeResponse`, `partialResponse`, and the instance field
`this.partialResponseIndex` (which the loop increments). -/
structure LoopState where
  completeResponse : JStr
  partialResponse : JStr
  replyIdx : Nat
deriving DecidableEq, Repr

/-- One iteration of the chunk loop (lines 73–94).  Appends the chunk content
to both buffers; if `content.trim().slice(-1) === "•"` or
`finish_reason === "stop"`, emits a `gptreply` event carrying the trimmed
partial buffer and the current index, increments the index and clears the
partial buffer. -/
def processChunk (callSid : Option String) (interactionCount : Nat)
    (ls : LoopState) (c : Chunk) : LoopState × List Event :=
  let completeResponse := ls.completeResponse ++ c.content
  let partialResponse := ls.partialResponse ++ c.content
  if boundaryHit c.content || c.finish == some "stop" then
    (⟨completeResponse, [], ls.replyIdx + 1⟩,
     [Event.gptreply ⟨ls.replyIdx, jsTrim partialResponse, callSid⟩ interactionCount])
  else
    (⟨completeResponse, partialResponse, ls.replyIdx⟩, [])

/-- The whole chunk loop, folding `processChunk` over the stream and
concatenating the emitted events in order. -/
def processChunks (callSid : Option String) (interactionCount : Nat)
    (ls : LoopState) : List Chunk → LoopState × List Event
  | [] => (ls, [])
  | c :: cs =>
    let step := processChunk callSid interactionCount ls c
    let rest := processChunks callSid interactionCount step.1 cs
    (rest.1, step.2 ++ rest.2)

/-- One streaming attempt: the chunks the provider yielded, then either normal
stream completion (`failure = none`) or an error raised after those chunks
(`failure = some e`; this covers both a failed `create` call, with no
chunks, and a stream failing mid-iteration). -/
structure Attempt where
  chunks : List Chunk
  failure : Option String
deriving Repr

/-- Result of the retry loop (lines 62–120): the assistant content pushed on
success (if any), the error re-raised out of the loop (if any), the final
`partialResponseIndex`, the events emitted, and the backoff sleeps (ms). -/
structure AttemptsResult where
  newAssistant : Option JStr
  thrownError : Option String
  replyIdx : Nat
  events : List Event
  waits : List Nat
deriving Repr

/-- The `while (retryCount < this.maxRetries && !success)` retry loop.  Each
list element is the attempt executed by one iteration.  On failure the
counter is incremented; at `retryCount === maxRetries` the error is
re-thrown, otherwise the loop sleeps `2^retryCount * 1000` ms and retries.
(An empty attempt list while the loop would still run models no further
provider behaviour; theorems always supply one attempt per iteration.) -/
def runAttempts (callSid : Option String) (interactionCount : Nat)
    (maxRetries : Nat) (retryCount : Nat) (replyIdx : Nat) :
    List Attempt → AttemptsResult
  | [] => ⟨none, none, replyIdx, [], []⟩
  | a :: rest =>
    if retryCount < maxRetries then
      let run := processChunks callSid interactionCount ⟨[], [], replyIdx⟩ a.chunks
      match a.failure with
      | none =>
        ⟨some run.1.completeResponse, none, run.1.replyIdx, run.2, []⟩
      | some e =>
        if retryCount + 1 = maxRetries then
          ⟨none, some e, run.1.replyIdx, run.2, []⟩
        else
          let r := runAttempts callSid interactionCount maxRetries
            (retryCount + 1) run.1.replyIdx rest
          ⟨r.newAssistant, r.thrownError, r.replyIdx,
           run.2 ++ r.events, 2 ^ (retryCount + 1) * 1000 :: r.waits⟩
    else ⟨none, none, replyIdx, [], []⟩

/-- The session state: the fields set by the constructor (lines 9–24). -/
structure GptState where
  userContext : List Turn
  partialResponseIndex : Nat
  callSid : Option String
  isProcessing : Bool
  maxRetries : Nat
deriving Repr

/-- The fixed system turn of the constructor. -/
def systemTurn : Turn :=
  ⟨"system", "You can only talk in 8 words max. Your name is Aiden Suh. You are from South Korea. You are a student at the University of Waterloo.".toList⟩

/-- The fixed seed assistant greeting of the constructor. -/
def greetingTurn : Turn := ⟨"assistant", "Hello!".toList⟩

/-- The seed transcript: exactly the system turn then the greeting. -/
def initialContext : List Turn := [systemTurn, greetingTurn]

/-- The constructor's state. -/
def initialState : GptState :=
  ⟨initialContext, 0, none, false, 3⟩

/-- `setCallSid` (lines 26–29). -/
def setCallSid (s : GptState) (sid : String) : GptState :=
  { s with callSid := some sid }

/-- `resetContext` (lines 31–35): keep only the first two messages and zero
the reply counter. -/
def resetContext (s : GptState) : GptState :=
  { s with userContext := s.userContext.take 2, partialResponseIndex := 0 }

/-- `cleanup` (lines 37–42): `resetContext`, detach listeners (not part of the
modelled state), clear `isProcessing`. -/
def cleanup (s : GptState) : GptState :=
  { resetContext s with isProcessing := false }

/-- `shouldResetContext` (lines 141–143). -/
def shouldResetContext (s : GptState) : Bool :=
  s.userContext.length > 10

/-- The fixed fallback apology emitted when the retry loop throws (line 130). -/
def fallbackText : JStr :=
  "I apologize, but I'm having trouble processing your request. • Could you please repeat that?".toList

/-- Result of one `completion` call: the state on return, the events emitted
(in order), and the backoff sleeps performed (ms, in order). -/
structure CompletionResult where
  state : GptState
  events : List Event
  waits : List Nat
deriving Repr

/-- `completion(text, interactionCount, role = "user")` (lines 44–138).
If `isProcessing`, return immediately (no state change, no events).
Otherwise push the inbound turn, run the retry loop; on success push the
assistant turn; if the loop re-threw, emit `error` then the fallback
`gptreply` (without incrementing the index); `finally` clears
`isProcessing`.  (The source's unused `name` parameter is omitted.) -/
def completion (s : GptState) (text : JStr) (interactionCount : Nat)
    (attempts : List Attempt) (role : String := "user") : CompletionResult :=
  if s.isProcessing then ⟨s, [], []⟩
  else
    let ctx := s.userContext ++ [⟨role, text⟩]
    let r := runAttempts s.callSid interactionCount s.maxRetries 0
      s.partialResponseIndex attempts
    match r.newAssistant with
    | some complete =>
      ⟨{ s with
          userContext := ctx ++ [⟨"assistant", complete⟩],
          partialResponseIndex := r.replyIdx, isProcessing := false },
       r.events, r.waits⟩
    | none =>
      match r.thrownError with
      | some e =>
        ⟨{ s with
            userContext := ctx, partialResponseIndex := r.replyIdx,
            isProcessing := false },
         r.events ++
           [Event.error e,
            Event.gptreply ⟨r.replyIdx, fallbackText, s.callSid⟩ interactionCount],
         r.waits⟩
      | none =>
        ⟨{ s with
            userContext := ctx, partialResponseIndex := r.replyIdx,
            isProcessing := false },
         r.events, r.waits⟩

/-- A public operation on the service, for the reachability relation.
(`shouldResetContext` is a pure query and does not change the state.) -/
inductive Op where
  | setSid (sid : String)
  | reset
  | clean
  | complete (text : JStr) (interactionCount : Nat) (attempts : List Attempt)
      (role : String)

/-- Apply one public operation to the session state (for `completion`, the
emitted events and sleeps are irrelevant to state reachability). -/
def applyOp (s : GptState) : Op → GptState
  | .setSid sid => setCallSid s sid
  | .reset => resetContext s
  | .clean => cleanup s
  | .complete text ic attempts role => (completion s text ic attempts role).state

/-- States reachable from the constructor state by public operations. -/
inductive Reachable : GptState → Prop where
  | init : Reachable initialState
  | step {s : GptState} (op : Op) : Reachable s → Reachable (applyOp s op)

/-- Number of occurrences of the boundary marker `•` anywhere in the contents
of a chunk sequence. -/
def markerCount (cs : List Chunk) : Nat :=
  (cs.map (fun c => c.content.count '•')).sum

/-- Number of chunks whose trimmed content ends in the boundary marker —
exactly the chunks the source's check (line 81) reacts to. -/
def boundaryChunkCount (cs : List Chunk) : Nat :=
  (cs.filter (fun c => boundaryHit c.content)).length

/-- The `partialResponseIndex` values of the `gptreply` events in a list, in
emission order. -/
def replyIndices (evs : List Event) : List Nat :=
  evs.filterMap fun e =>
    match e with
    | .gptreply r _ => some r.partialResponseIndex
    | .error _ => none

/-! ## String lemmas

`lastNonWS?` extracts the last non-whitespace character of a string; it is
the quantity `s.trim().slice(-1)` observes.  The lemmas below let us move
between the trimmed-fragment check the source performs and the
trimmed-buffer view of the specification. -/

/-- The last non-whitespace character of a string, if any. -/
def lastNonWS? (l : JStr) : Option Char :=
  (l.reverse.dropWhile Char.isWhitespace).head?

theorem jsTrim_getLast? (l : JStr) : (jsTrim l).getLast? = lastNonWS? l := by
  unfold jsTrim lastNonWS?
  rw [List.getLast?_reverse]
  conv_rhs => rw [← List.takeWhile_append_dropWhile Char.isWhitespace l]
  rw [List.reverse_append, List.dropWhile_append]
  by_cases h :
      ((l.dropWhile Char.isWhitespace).reverse.dropWhile Char.isWhitespace).isEmpty
  · rw [if_pos h]
    rw [List.isEmpty_iff] at h
    rw [h]
    have hws : ((l.takeWhile Char.isWhitespace).reverse.dropWhile
        Char.isWhitespace) = [] := by
      rw [List.dropWhile_eq_nil_iff]
      intro x hx
      exact List.mem_takeWhile_imp (List.mem_reverse.mp hx)
    rw [hws]
  · rw [if_neg h, List.head?_append_of_ne_nil]
    intro hnil
    rw [List.isEmpty_iff] at h
    exact h hnil

theorem lastNonWS?_append (a b : JStr) :
    lastNonWS? (a ++ b) = (lastNonWS? b).or (lastNonWS? a) := by
  unfold lastNonWS?
  rw [List.reverse_append, List.dropWhile_append]
  by_cases h : (b.reverse.dropWhile Char.isWhitespace).isEmpty
  · rw [if_pos h]
    rw [List.isEmpty_iff] at h
    rw [h]
    rfl
  · rw [if_neg h]
    rw [List.isEmpty_iff] at h
    rw [List.head?_append_of_ne_nil _ h]
    cases hh : (b.reverse.dropWhile Char.isWhitespace).head? with
    | none => exact absurd (List.head?_eq_none_iff.mp hh) h
    | some c => rfl

theorem boundaryHit_iff (s : JStr) :
    boundaryHit s = true ↔ lastNonWS? s = some '•' := by
  unfold boundaryHit
  rw [jsTrim_getLast?]
  exact beq_iff_eq

/-- Under the buffer invariant, the source's check on the trimmed fragment
agrees with the specification's check on the trimmed buffer. -/
theorem boundaryHit_append (p c : JStr) (hinv : lastNonWS? p ≠ some '•') :
    boundaryHit (p ++ c) = boundaryHit c := by
  rcases hb : boundaryHit c with _ | _
  · rw [← Bool.not_eq_true, boundaryHit_iff, lastNonWS?_append]
    rw [← Bool.not_eq_true, boundaryHit_iff] at hb
    cases hc : lastNonWS? c with
    | none => simpa [hc] using hinv
    | some x => simpa [hc] using fun hx => hb (by rw [hc, hx])
  · rw [boundaryHit_iff] at hb ⊢
    rw [lastNonWS?_append, hb]
    rfl

/-! ## Helper lemmas about `completion` -/

/-- `completion` only ever appends to the transcript (possibly nothing, when
the session was busy or the retry loop produced no success). -/
theorem completion_userContext (s : GptState) (text : JStr) (ic : Nat)
    (attempts : List Attempt) (role : String) :
    ∃ m : List Turn,
      (completion s text ic attempts role).state.userContext = s.userContext ++ m := by
  by_cases h : s.isProcessing = true
  · simp only [completion, h, if_true]
    exact ⟨[], by simp⟩
  · unfold completion
    rw [if_neg h]
    dsimp only
    split
    · next c hc => exact ⟨[⟨role, text⟩, ⟨"assistant", c⟩], by simp⟩
    · split
      · next e he => exact ⟨[⟨role, text⟩], rfl⟩
      · exact ⟨[⟨role, text⟩], rfl⟩

/-- Taking the first two turns of a transcript that extends the seed pair
recovers exactly the seed pair. -/
theorem take_two_initial (rest : List Turn) :
    (initialContext ++ rest).take 2 = initialContext := by
  rw [List.take_append_eq_append_take]
  rfl

/-- The seed-pair invariant: reachable states have the seed pair as the first
two transcript entries, and at least those two entries. -/
theorem reachable_seed (s : GptState) (h : Reachable s) :
    s.userContext.take 2 = initialContext ∧ 2 ≤ s.userContext.length := by
  induction h with
  | init => exact ⟨rfl, Nat.le_refl 2⟩
  | @step s' op hr ih =>
    obtain ⟨ih1, ih2⟩ := ih
    cases op with
    | setSid sid => exact ⟨ih1, ih2⟩
    | reset =>
      simp only [applyOp, resetContext, List.take_take, Nat.min_self,
        List.length_take]
      exact ⟨ih1, by omega⟩
    | clean =>
      simp only [applyOp, cleanup, resetContext, List.take_take, Nat.min_self,
        List.length_take]
      exact ⟨ih1, by omega⟩
    | complete text ic attempts role =>
      obtain ⟨m, hm⟩ := completion_userContext s' text ic attempts role
      simp only [applyOp, hm]
      constructor
      · rw [List.take_append_eq_append_take, ih1,
          Nat.sub_eq_zero_of_le ih2, List.take_zero, List.append_nil]
      · rw [List.length_append]
        omega

/-- Counting lemma for the chunk loop: over non-terminal chunks `cs` followed
by a final `stop` chunk, the loop emits one event per chunk whose trimmed
content ends in the marker, plus one for the `stop` chunk, with consecutive
indices starting at the incoming `replyIdx`. -/
theorem processChunks_stop_count (cid : Option String) (ic : Nat) (f : Chunk)
    (hf : f.finish = some "stop") (cs : List Chunk) :
    ∀ ls : LoopState, (∀ c ∈ cs, c.finish = none) →
      (processChunks cid ic ls (cs ++ [f])).2.length = boundaryChunkCount cs + 1 ∧
      replyIndices (processChunks cid ic ls (cs ++ [f])).2 =
        List.range' ls.replyIdx (boundaryChunkCount cs + 1) := by
  induction cs with
  | nil =>
    intro ls _
    simp only [List.nil_append, processChunks, processChunk]
    rw [hf]
    simp [boundaryChunkCount, replyIndices, List.range'_succ]
  | cons c cs ih =>
    intro ls hns
    have hcf : c.finish = none := hns c (List.mem_cons_self c cs)
    have hns' : ∀ x ∈ cs, x.finish = none := fun x hx =>
      hns x (List.mem_cons_of_mem c hx)
    simp only [List.cons_append, processChunks, processChunk]
    rw [hcf]
    by_cases hb : boundaryHit c.content = true
    · rw [hb]
      simp only [Bool.true_or, if_true]
      obtain ⟨ihl, ihr⟩ := ih ⟨ls.completeResponse ++ c.content, [], ls.replyIdx + 1⟩ hns'
      have hcnt : boundaryChunkCount (c :: cs) = boundaryChunkCount cs + 1 := by
        simp [boundaryChunkCount, List.filter_cons, hb]
      constructor
      · simp only [List.singleton_append, List.length_cons, List.append_eq, ihl, hcnt]
      · simp only [List.singleton_append, replyIndices, List.filterMap_cons,
          List.append_eq, hcnt, List.range'_succ]
        simp only [replyIndices] at ihr
        rw [ihr, List.range'_succ]
    · rw [Bool.not_eq_true] at hb
      rw [hb]
      simp only [Bool.false_or]
      rw [if_neg (by simp)]
      obtain ⟨ihl, ihr⟩ := ih ⟨ls.completeResponse ++ c.content,
        ls.partialResponse ++ c.content, ls.replyIdx⟩ hns'
      rw [show boundaryChunkCount (c :: cs) = boundaryChunkCount cs by
        simp [boundaryChunkCount, List.filter_cons, hb]]
      exact ⟨by simpa using ihl, by simpa using ihr⟩

/-- A stream of fragments none of which ends (trimmed) in the marker or
carries `stop` emits nothing and leaves the reply counter unchanged. -/
theorem processChunks_no_trigger (cid : Option String) (ic : Nat)
    (chunks : List Chunk) :
    ∀ ls : LoopState,
      (∀ c ∈ chunks, boundaryHit c.content = false ∧ c.finish ≠ some "stop") →
      (processChunks cid ic ls chunks).2 = [] ∧
      (processChunks cid ic ls chunks).1.replyIdx = ls.replyIdx := by
  induction chunks with
  | nil => intro ls _; exact ⟨rfl, rfl⟩
  | cons c cs ih =>
    intro ls h
    obtain ⟨hb, hs⟩ := h c (List.mem_cons_self c cs)
    have h' : ∀ x ∈ cs, boundaryHit x.content = false ∧ x.finish ≠ some "stop" :=
      fun x hx => h x (List.mem_cons_of_mem c hx)
    simp only [processChunks, processChunk, hb, Bool.false_or]
    rw [if_neg (by simpa using hs)]
    exact ih _ h'

/-- Evaluation of `completion` when the three attempts of the retry loop all
fail immediately (no fragments yielded): two backoff sleeps, an `error`
event carrying the last error, the fallback `gptreply` at the unchanged
index, and no assistant turn. -/
theorem completion_exhausted (s : GptState) (text : JStr) (ic : Nat)
    (e1 e2 e3 : String) (role : String)
    (hbusy : s.isProcessing = false) (hmr : s.maxRetries = 3) :
    completion s text ic [⟨[], some e1⟩, ⟨[], some e2⟩, ⟨[], some e3⟩] role =
      ⟨{ s with
          userContext := s.userContext ++ [⟨role, text⟩],
          isProcessing := false },
       [Event.error e3,
        Event.gptreply ⟨s.partialResponseIndex, fallbackText, s.callSid⟩ ic],
       [2000, 4000]⟩ := by
  unfold completion
  rw [if_neg (by simp [hbusy])]
  dsimp only
  rw [hmr]
  simp only [runAttempts, processChunks]
  norm_num

/-- Evaluation of `completion` when the first two attempts fail after
yielding only non-triggering fragments and the third attempt streams `cs`
to completion: sleeps of 2s and 4s, events exactly those of the successful
stream, and exactly one new assistant turn holding its complete response. -/
theorem completion_fail2_success (s : GptState) (text : JStr) (ic : Nat)
    (cs1 cs2 : List Chunk) (e1 e2 : String) (cs : List Chunk) (role : String)
    (hbusy : s.isProcessing = false) (hmr : s.maxRetries = 3)
    (h1 : ∀ c ∈ cs1, boundaryHit c.content = false ∧ c.finish ≠ some "stop")
    (h2 : ∀ c ∈ cs2, boundaryHit c.content = false ∧ c.finish ≠ some "stop") :
    completion s text ic [⟨cs1, some e1⟩, ⟨cs2, some e2⟩, ⟨cs, none⟩] role =
      ⟨{ s with
          userContext := s.userContext ++ [⟨role, text⟩,
            ⟨"assistant", (processChunks s.callSid ic
              ⟨[], [], s.partialResponseIndex⟩ cs).1.completeResponse⟩],
          partialResponseIndex := (processChunks s.callSid ic
            ⟨[], [], s.partialResponseIndex⟩ cs).1.replyIdx,
          isProcessing := false },
       (processChunks s.callSid ic ⟨[], [], s.partialResponseIndex⟩ cs).2,
       [2000, 4000]⟩ := by
  obtain ⟨h1e, h1i⟩ := processChunks_no_trigger s.callSid ic cs1
    ⟨[], [], s.partialResponseIndex⟩ h1
  unfold completion
  rw [if_neg (by simp [hbusy])]
  dsimp only
  rw [hmr]
  simp only [runAttempts]
  rw [h1e, h1i]
  obtain ⟨h2e, h2i⟩ := processChunks_no_trigger s.callSid ic cs2
    ⟨[], [], s.partialResponseIndex⟩ h2
  rw [h2e, h2i]
  norm_num

/-- The chunk loop never decreases the reply counter. -/
theorem processChunks_replyIdx_mono (cid : Option String) (ic : Nat)
    (chunks : List Chunk) :
    ∀ ls : LoopState, ls.replyIdx ≤ (processChunks cid ic ls chunks).1.replyIdx := by
  induction chunks with
  | nil => intro ls; exact Nat.le_refl _
  | cons c cs ih =>
    intro ls
    simp only [processChunks, processChunk]
    by_cases hcond : (boundaryHit c.content || c.finish == some "stop") = true
    · rw [if_pos hcond]
      exact Nat.le_trans (Nat.le_succ _)
        (ih ⟨ls.completeResponse ++ c.content, [], ls.replyIdx + 1⟩)
    · rw [if_neg hcond]
      exact ih ⟨ls.completeResponse ++ c.content,
        ls.partialResponse ++ c.content, ls.replyIdx⟩

/-- The retry loop never decreases the reply counter. -/
theorem runAttempts_replyIdx_mono (cid : Option String) (ic maxR : Nat)
    (attempts : List Attempt) :
    ∀ retry idx, idx ≤ (runAttempts cid ic maxR retry idx attempts).replyIdx := by
  induction attempts with
  | nil => intro retry idx; exact Nat.le_refl _
  | cons a rest ih =>
    intro retry idx
    simp only [runAttempts]
    split
    · split
      · exact processChunks_replyIdx_mono cid ic a.chunks ⟨[], [], idx⟩
      · split
        · exact processChunks_replyIdx_mono cid ic a.chunks ⟨[], [], idx⟩
        · exact Nat.le_trans
            (processChunks_replyIdx_mono cid ic a.chunks ⟨[], [], idx⟩)
            (ih (retry + 1)
              (processChunks cid ic ⟨[], [], idx⟩ a.chunks).1.replyIdx)
    · exact Nat.le_refl _

/-- `completion` never decreases `partialResponseIndex`. -/
theorem completion_replyIdx_mono (s : GptState) (text : JStr) (ic : Nat)
    (attempts : List Attempt) (role : String) :
    s.partialResponseIndex ≤
      (completion s text ic attempts role).state.partialResponseIndex := by
  by_cases h : s.isProcessing = true
  · simp only [completion, h, if_true]
    exact Nat.le_refl _
  · unfold completion
    rw [if_neg h]
    dsimp only
    split
    · next c hc => exact runAttempts_replyIdx_mono _ _ _ _ _ _
    · split
      · next e he => exact runAttempts_replyIdx_mono _ _ _ _ _ _
      · exact runAttempts_replyIdx_mono _ _ _ _ _ _

/-! ## Claim theorems -/

/-- C1: during the chunk loop of `completion`, a `gptreply` event is emitted
at exactly those chunks where the trimmed partial buffer (after appending the
fragment) ends in the boundary marker `•`, or the provider signals `stop`;
a marker that is not the last character of the buffer at check time does not
trigger emission, and the partial buffer is cleared after every emission.
The hypothesis — the incoming buffer does not already end (trimmed) in a
marker — holds at loop start (the buffer is empty) and is preserved by every
step (third conjunct), so the characterisation applies along any run. -/
theorem completion_boundary_emission (cid : Option String) (ic : Nat)
    (ls : LoopState) (c : Chunk)
    (hinv : lastNonWS? ls.partialResponse ≠ some '•') :
    ((processChunk cid ic ls c).2 ≠ [] ↔
      (boundaryHit (ls.partialResponse ++ c.content) = true ∨ c.finish = some "stop"))
    ∧ ((processChunk cid ic ls c).2 ≠ [] →
        (processChunk cid ic ls c).1.partialResponse = [])
    ∧ lastNonWS? (processChunk cid ic ls c).1.partialResponse ≠ some '•' := by
  have hbuf : boundaryHit (ls.partialResponse ++ c.content) = boundaryHit c.content :=
    boundaryHit_append _ _ hinv
  unfold processChunk
  by_cases hcond : (boundaryHit c.content || c.finish == some "stop") = true
  · rw [if_pos hcond]
    refine ⟨⟨fun _ => ?_, fun _ => List.cons_ne_nil _ _⟩, fun _ => rfl, ?_⟩
    · rw [hbuf]
      rcases Bool.or_eq_true_iff.mp hcond with h | h
      · exact Or.inl h
      · exact Or.inr (beq_iff_eq.mp h)
    · intro hlast
      simp [lastNonWS?] at hlast
  · rw [if_neg hcond]
    rw [Bool.or_eq_true_iff] at hcond
    push_neg at hcond
    refine ⟨⟨fun h => absurd rfl h, fun h => ?_⟩, fun h => absurd rfl h, ?_⟩
    · rw [hbuf] at h
      rcases h with h | h
      · exact absurd h hcond.1
      · exact absurd (beq_iff_eq.mpr h) hcond.2
    · show lastNonWS? (ls.partialResponse ++ c.content) ≠ some '•'
      rw [lastNonWS?_append]
      have hc : lastNonWS? c.content ≠ some '•' := by
        intro h
        exact hcond.1 ((boundaryHit_iff c.content).mpr h)
      cases hcc : lastNonWS? c.content with
      | none => simpa using hinv
      | some x => simpa using fun hx => hc (by rw [hcc, hx])

/-- Witness for C1 at a concrete input: buffer `"ab"`, fragment `"c•"`. -/
theorem completion_boundary_emission_witness :
    lastNonWS? ("ab".toList : JStr) ≠ some '•' ∧
    (((processChunk none 0 ⟨[], "ab".toList, 0⟩ ⟨"c•".toList, none⟩).2 ≠ [] ↔
      (boundaryHit ("ab".toList ++ "c•".toList) = true ∨
        (none : Option String) = some "stop"))
    ∧ ((processChunk none 0 ⟨[], "ab".toList, 0⟩ ⟨"c•".toList, none⟩).2 ≠ [] →
        (processChunk none 0 ⟨[], "ab".toList, 0⟩ ⟨"c•".toList, none⟩).1.partialResponse = [])
    ∧ lastNonWS? (processChunk none 0 ⟨[], "ab".toList, 0⟩
        ⟨"c•".toList, none⟩).1.partialResponse ≠ some '•') :=
  ⟨by decide, completion_boundary_emission none 0 ⟨[], "ab".toList, 0⟩
    ⟨"c•".toList, none⟩ (by decide)⟩

/-- C6: calling `completion` while the session is busy is a no-op — the state
(including the transcript) is returned unchanged and no event is emitted. -/
theorem completion_busy_noop (s : GptState) (text : JStr) (ic : Nat)
    (attempts : List Attempt) (role : String) (h : s.isProcessing = true) :
    completion s text ic attempts role = ⟨s, [], []⟩ := by
  unfold completion
  rw [if_pos h]

/-- Witness for C6: a busy variant of the constructor state. -/
theorem completion_busy_noop_witness :
    ({ initialState with isProcessing := true } : GptState).isProcessing = true ∧
    completion { initialState with isProcessing := true } "hi".toList 0 [] "user" =
      ⟨{ initialState with isProcessing := true }, [], []⟩ :=
  ⟨rfl, completion_busy_noop _ _ 0 [] "user" rfl⟩

/-- C9: every `completion` invocation that acquires the guard (the session was
not busy) leaves `isProcessing` false on exit, whatever the provider does —
success, exhausted retry, or any failure pattern. -/
theorem completion_clears_busy (s : GptState) (text : JStr) (ic : Nat)
    (attempts : List Attempt) (role : String) (h : s.isProcessing = false) :
    (completion s text ic attempts role).state.isProcessing = false := by
  unfold completion
  rw [h]
  simp only [Bool.false_eq_true, if_false]
  rcases (runAttempts s.callSid ic s.maxRetries 0 s.partialResponseIndex
      attempts).newAssistant with _ | complete
  · rcases (runAttempts s.callSid ic s.maxRetries 0 s.partialResponseIndex
        attempts).thrownError with _ | e
    · rfl
    · rfl
  · rfl

/-- Witness for C9: the constructor state with an always-failing provider. -/
theorem completion_clears_busy_witness :
    initialState.isProcessing = false ∧
    (completion initialState "hi".toList 0
      [⟨[], some "e"⟩, ⟨[], some "e"⟩, ⟨[], some "e"⟩] "user").state.isProcessing
      = false :=
  ⟨rfl, completion_clears_busy initialState "hi".toList 0
    [⟨[], some "e"⟩, ⟨[], some "e"⟩, ⟨[], some "e"⟩] "user" rfl⟩

/-- C8: in every reachable session state the transcript begins with the fixed
system turn followed by the seed assistant greeting (the seed pair is a
prefix of the transcript), and an explicit `resetContext` truncates the
transcript back to exactly this pair (length 2, original content). -/
theorem transcript_seed_invariant (s : GptState) (h : Reachable s) :
    (∃ rest, s.userContext = initialContext ++ rest) ∧
    (resetContext s).userContext = initialContext ∧
    (resetContext s).userContext.length = 2 := by
  obtain ⟨h1, h2⟩ := reachable_seed s h
  have hreset : (resetContext s).userContext = initialContext := h1
  refine ⟨⟨s.userContext.drop 2, ?_⟩, hreset, ?_⟩
  · rw [← h1, List.take_append_drop]
  · rw [hreset]
    rfl

/-- Witness for C8: the constructor state is reachable and satisfies the
invariant. -/
theorem transcript_seed_invariant_witness :
    Reachable initialState ∧
    ((∃ rest, initialState.userContext = initialContext ++ rest) ∧
     (resetContext initialState).userContext = initialContext ∧
     (resetContext initialState).userContext.length = 2) :=
  ⟨Reachable.init, transcript_seed_invariant initialState Reachable.init⟩

/-- C2 counterexample: for fragments `["ab", "c•", "def•"]` with the provider
signalling `stop` on the final fragment, `completion` does emit exactly two
`gptreply` events, but their texts are `"abc•"` and `"def•"` — `trim()` does
not remove the boundary marker, so the claimed texts `"abc"` and `"def"` are
wrong. -/
theorem boundary_test_counterexample :
    (completion initialState "hi".toList 1
      [⟨[⟨"ab".toList, none⟩, ⟨"c•".toList, none⟩, ⟨"def•".toList, some "stop"⟩],
        none⟩]).events =
      [Event.gptreply ⟨0, "abc•".toList, none⟩ 1,
       Event.gptreply ⟨1, "def•".toList, none⟩ 1] ∧
    ("abc•".toList : JStr) ≠ "abc".toList ∧
    ("def•".toList : JStr) ≠ "def".toList := by
  refine ⟨by decide, by decide, by decide⟩

/-- C2 (amended): for the fragment sequence `["ab", "c•", "def•"]` with `stop`
signalled on the final fragment, `completion` emits exactly two `gptreply`
events whose texts are `"abc•"` and `"def•"` (each the `trim()` of the partial
buffer, which keeps the boundary marker), with consecutive indices starting at
the session counter — the buffer having been cleared between the two
emissions. -/
theorem boundary_test_emission :
    (completion initialState "hi".toList 1
      [⟨[⟨"ab".toList, none⟩, ⟨"c•".toList, none⟩, ⟨"def•".toList, some "stop"⟩],
        none⟩]).events =
      [Event.gptreply ⟨0, jsTrim ("ab".toList ++ "c•".toList), none⟩ 1,
       Event.gptreply ⟨1, jsTrim "def•".toList, none⟩ 1] := by
  decide

/-- C3 counterexample: the fragment `"a•b•c"` contains `k = 2` boundary
markers, but since neither is the last character of the trimmed fragment the
code never reacts to them: followed by an empty terminal `stop` chunk,
`completion` emits exactly 1 event — not `k + 1 = 3`, and not `k = 2`
either (the variant allowed when the stream ends exactly on a marker). -/
theorem segment_count_counterexample :
    markerCount [⟨"a•b•c".toList, none⟩, ⟨[], some "stop"⟩] = 2 ∧
    (completion initialState "hi".toList 0
      [⟨[⟨"a•b•c".toList, none⟩, ⟨[], some "stop"⟩], none⟩]).events.length = 1 ∧
    (1 : Nat) ≠ 2 + 1 ∧ (1 : Nat) ≠ 2 := by
  refine ⟨by decide, by decide, by decide, by decide⟩

/-- C3 (amended): for a single successful streaming attempt whose non-terminal
fragments contain `k` fragments ending (after trimming) in the boundary
marker, followed by a terminal `stop` chunk, `completion` emits exactly
`k + 1` `gptreply` events — the per-fragment count, not the count of marker
occurrences, is what the code reacts to — and their `segmentIndex` values
are strictly increasing consecutive integers starting from the session's
current `partialResponseIndex`.  (When the `stop` rides on a final
marker-ended fragment, that fragment is one of the `k` and the total is `k`,
which this statement covers by letting `f` carry both.) -/
theorem segment_count_and_ordering (s : GptState) (text : JStr) (ic : Nat)
    (cs : List Chunk) (f : Chunk) (role : String)
    (hbusy : s.isProcessing = false) (hmr : 0 < s.maxRetries)
    (hns : ∀ c ∈ cs, c.finish = none) (hf : f.finish = some "stop") :
    (completion s text ic [⟨cs ++ [f], none⟩] role).events.length =
      boundaryChunkCount cs + 1 ∧
    replyIndices (completion s text ic [⟨cs ++ [f], none⟩] role).events =
      List.range' s.partialResponseIndex (boundaryChunkCount cs + 1) := by
  have hrun := processChunks_stop_count s.callSid ic f hf cs
    ⟨[], [], s.partialResponseIndex⟩ hns
  unfold completion
  rw [if_neg (by simp [hbusy])]
  dsimp only
  unfold runAttempts
  rw [if_pos hmr]
  dsimp only
  exact hrun

/-- Witness for C3 (amended) at `cs = ["x•"]`, `f` the empty stop chunk. -/
theorem segment_count_and_ordering_witness :
    (initialState.isProcessing = false ∧ 0 < initialState.maxRetries ∧
     (∀ c ∈ [(⟨"x•".toList, none⟩ : Chunk)], c.finish = none) ∧
     (⟨([] : JStr), some "stop"⟩ : Chunk).finish = some "stop") ∧
    ((completion initialState "hi".toList 0
        [⟨[⟨"x•".toList, none⟩] ++ [⟨[], some "stop"⟩], none⟩] "user").events.length =
      boundaryChunkCount [⟨"x•".toList, none⟩] + 1 ∧
     replyIndices (completion initialState "hi".toList 0
        [⟨[⟨"x•".toList, none⟩] ++ [⟨[], some "stop"⟩], none⟩] "user").events =
      List.range' initialState.partialResponseIndex
        (boundaryChunkCount [⟨"x•".toList, none⟩] + 1)) :=
  ⟨⟨rfl, by decide, by decide, rfl⟩,
   segment_count_and_ordering initialState "hi".toList 0
     [⟨"x•".toList, none⟩] ⟨[], some "stop"⟩ "user" rfl (by decide) (by decide) rfl⟩

/-- C4 counterexample: with an always-failing provider the backoff sleeps are
exactly 2s then 4s — the claimed third wait of `8s` (for "attempts 1–3")
never occurs, because after the third failed attempt the error is re-raised
without a further wait. -/
theorem retry_backoff_counterexample :
    (completion initialState "hi".toList 0
      [⟨[], some "e1"⟩, ⟨[], some "e2"⟩, ⟨[], some "e3"⟩] "user").waits =
      [2000, 4000] ∧
    ¬ (8000 ∈ (completion initialState "hi".toList 0
      [⟨[], some "e1"⟩, ⟨[], some "e2"⟩, ⟨[], some "e3"⟩] "user").waits) := by
  refine ⟨by decide, by decide⟩

/-- C4 (amended): the retry loop runs at most `retryLimit = 3` attempts,
sleeping `2^attempt` seconds after failed attempt 1 (2s) and after failed
attempt 2 (4s); no wait follows the final attempt, whose failure is
re-raised.  With a provider that fails twice then succeeds, `completion`
succeeds having waited 2s then 4s, the transcript gains exactly one new
assistant turn holding the successful attempt's complete response, and the
emitted events are exactly those of the successful stream. -/
theorem retry_backoff (s : GptState) (text : JStr) (ic : Nat)
    (e1 e2 : String) (cs : List Chunk) (role : String)
    (hbusy : s.isProcessing = false) (hmr : s.maxRetries = 3) :
    (completion s text ic [⟨[], some e1⟩, ⟨[], some e2⟩, ⟨cs, none⟩] role).waits =
      [2000, 4000] ∧
    (completion s text ic
        [⟨[], some e1⟩, ⟨[], some e2⟩, ⟨cs, none⟩] role).state.userContext =
      s.userContext ++ [⟨role, text⟩,
        ⟨"assistant", (processChunks s.callSid ic
          ⟨[], [], s.partialResponseIndex⟩ cs).1.completeResponse⟩] ∧
    (completion s text ic [⟨[], some e1⟩, ⟨[], some e2⟩, ⟨cs, none⟩] role).events =
      (processChunks s.callSid ic ⟨[], [], s.partialResponseIndex⟩ cs).2 := by
  rw [completion_fail2_success s text ic [] [] e1 e2 cs role hbusy hmr
    (by simp) (by simp)]
  exact ⟨rfl, rfl, rfl⟩

/-- Witness for C4 (amended) at the constructor state, stream `["x" + stop]`. -/
theorem retry_backoff_witness :
    (initialState.isProcessing = false ∧ initialState.maxRetries = 3) ∧
    ((completion initialState "hi".toList 0
        [⟨[], some "e1"⟩, ⟨[], some "e2"⟩, ⟨[⟨"x".toList, some "stop"⟩], none⟩]
        "user").waits = [2000, 4000] ∧
     (completion initialState "hi".toList 0
        [⟨[], some "e1"⟩, ⟨[], some "e2"⟩, ⟨[⟨"x".toList, some "stop"⟩], none⟩]
        "user").state.userContext =
       initialState.userContext ++ [⟨"user", "hi".toList⟩,
         ⟨"assistant", (processChunks initialState.callSid 0
           ⟨[], [], initialState.partialResponseIndex⟩
           [⟨"x".toList, some "stop"⟩]).1.completeResponse⟩] ∧
     (completion initialState "hi".toList 0
        [⟨[], some "e1"⟩, ⟨[], some "e2"⟩, ⟨[⟨"x".toList, some "stop"⟩], none⟩]
        "user").events =
       (processChunks initialState.callSid 0
         ⟨[], [], initialState.partialResponseIndex⟩
         [⟨"x".toList, some "stop"⟩]).2) :=
  ⟨⟨rfl, rfl⟩, retry_backoff initialState "hi".toList 0 "e1" "e2"
    [⟨"x".toList, some "stop"⟩] "user" rfl rfl⟩

/-- C5: when every streaming attempt fails (before yielding any fragment, the
ordinary shape of a failed request), `completion` emits exactly one `error`
event carrying the last underlying error and exactly one `gptreply` event
carrying the fixed fallback apology (which contains a boundary marker), and
the transcript gains only the inbound turn — no assistant turn. -/
theorem exhaustion_fallback (s : GptState) (text : JStr) (ic : Nat)
    (e1 e2 e3 : String) (role : String)
    (hbusy : s.isProcessing = false) (hmr : s.maxRetries = 3) :
    (completion s text ic
        [⟨[], some e1⟩, ⟨[], some e2⟩, ⟨[], some e3⟩] role).events =
      [Event.error e3,
       Event.gptreply ⟨s.partialResponseIndex, fallbackText, s.callSid⟩ ic] ∧
    '•' ∈ fallbackText ∧
    (completion s text ic
        [⟨[], some e1⟩, ⟨[], some e2⟩, ⟨[], some e3⟩] role).state.userContext =
      s.userContext ++ [⟨role, text⟩] := by
  rw [completion_exhausted s text ic e1 e2 e3 role hbusy hmr]
  exact ⟨rfl, by decide, rfl⟩

/-- Witness for C5 at the constructor state. -/
theorem exhaustion_fallback_witness :
    (initialState.isProcessing = false ∧ initialState.maxRetries = 3) ∧
    ((completion initialState "hi".toList 0
        [⟨[], some "a"⟩, ⟨[], some "b"⟩, ⟨[], some "c"⟩] "user").events =
      [Event.error "c",
       Event.gptreply ⟨initialState.partialResponseIndex, fallbackText,
         initialState.callSid⟩ 0] ∧
     '•' ∈ fallbackText ∧
     (completion initialState "hi".toList 0
        [⟨[], some "a"⟩, ⟨[], some "b"⟩, ⟨[], some "c"⟩] "user").state.userContext =
      initialState.userContext ++ [⟨"user", "hi".toList⟩]) :=
  ⟨⟨rfl, rfl⟩, exhaustion_fallback initialState "hi".toList 0 "a" "b" "c" "user"
    rfl rfl⟩

/-- C10 counterexample: an attempt that yields the marker-ended fragment
`"a•"` and then fails does emit a `gptreply` before the retry — the run with
the failing attempt shows two segments, while the successful attempt alone
accounts for only one. -/
theorem retry_silent_counterexample :
    (completion initialState "hi".toList 0
      [⟨[⟨"a•".toList, none⟩], some "boom"⟩,
       ⟨[⟨"ok".toList, some "stop"⟩], none⟩] "user").events =
      [Event.gptreply ⟨0, "a•".toList, none⟩ 0,
       Event.gptreply ⟨1, "ok".toList, none⟩ 0] ∧
    (completion initialState "hi".toList 0
      [⟨[⟨"ok".toList, some "stop"⟩], none⟩] "user").events =
      [Event.gptreply ⟨0, "ok".toList, none⟩ 0] := by
  refine ⟨by decide, by decide⟩

/-- C10 (amended): a streaming attempt that fails *before yielding any
fragment that triggers emission* (no marker-ended fragment, no stop signal)
emits no `gptreply` events: across such transient retries the subscriber
observes exactly the successful attempt's events and nothing earlier.
(Segments a failing attempt emitted before its failure point are, however,
not retracted — see the counterexample.) -/
theorem retry_silent (s : GptState) (text : JStr) (ic : Nat)
    (cs1 cs2 : List Chunk) (e1 e2 : String) (cs : List Chunk) (role : String)
    (hbusy : s.isProcessing = false) (hmr : s.maxRetries = 3)
    (h1 : ∀ c ∈ cs1, boundaryHit c.content = false ∧ c.finish ≠ some "stop")
    (h2 : ∀ c ∈ cs2, boundaryHit c.content = false ∧ c.finish ≠ some "stop") :
    (completion s text ic
        [⟨cs1, some e1⟩, ⟨cs2, some e2⟩, ⟨cs, none⟩] role).events =
      (processChunks s.callSid ic ⟨[], [], s.partialResponseIndex⟩ cs).2 := by
  rw [completion_fail2_success s text ic cs1 cs2 e1 e2 cs role hbusy hmr h1 h2]

/-- Witness for C10 (amended): failing attempts yield only the plain
fragment `"ab"`. -/
theorem retry_silent_witness :
    (initialState.isProcessing = false ∧ initialState.maxRetries = 3 ∧
     (∀ c ∈ [(⟨"ab".toList, none⟩ : Chunk)],
        boundaryHit c.content = false ∧ c.finish ≠ some "stop")) ∧
    (completion initialState "hi".toList 0
        [⟨[⟨"ab".toList, none⟩], some "e1"⟩, ⟨[⟨"ab".toList, none⟩], some "e2"⟩,
         ⟨[⟨"ok".toList, some "stop"⟩], none⟩] "user").events =
      (processChunks initialState.callSid 0
        ⟨[], [], initialState.partialResponseIndex⟩
        [⟨"ok".toList, some "stop"⟩]).2 :=
  ⟨⟨rfl, rfl, by decide⟩,
   retry_silent initialState "hi".toList 0 [⟨"ab".toList, none⟩]
     [⟨"ab".toList, none⟩] "e1" "e2" [⟨"ok".toList, some "stop"⟩] "user"
     rfl rfl (by decide) (by decide)⟩

/-- C7 counterexample: the fallback emission does not increment
`partialResponseIndex`.  After an exhausted call the fallback `gptreply`
carried index 0 and the counter is still 0, so a subsequent successful call
emits index 0 again — emitted `segmentIndex` values repeat. -/
theorem replyIndex_counterexample :
    (completion initialState "a".toList 0
      [⟨[], some "e"⟩, ⟨[], some "e"⟩, ⟨[], some "e"⟩] "user").events =
      [Event.error "e", Event.gptreply ⟨0, fallbackText, none⟩ 0] ∧
    (completion initialState "a".toList 0
      [⟨[], some "e"⟩, ⟨[], some "e"⟩, ⟨[], some "e"⟩]
      "user").state.partialResponseIndex = 0 ∧
    (completion (completion initialState "a".toList 0
        [⟨[], some "e"⟩, ⟨[], some "e"⟩, ⟨[], some "e"⟩] "user").state
      "b".toList 1 [⟨[⟨"x".toList, some "stop"⟩], none⟩] "user").events =
      [Event.gptreply ⟨0, "x".toList, none⟩ 1] := by
  refine ⟨by decide, by decide, by decide⟩

/-- C7 (amended): `partialResponseIndex` never decreases and increments after
every emission of the streaming loop (and only then), but the fallback
emission carries the current index *without* incrementing it — so a
fallback's `segmentIndex` can be reused by a later emission — and it is
reset to 0 by `resetContext`. -/
theorem replyIndex_behavior (cid : Option String) (ic : Nat)
    (ls : LoopState) (c : Chunk) (s : GptState) (text text2 : JStr)
    (ic2 : Nat) (e1 e2 e3 : String) (role role2 : String)
    (attempts2 : List Attempt)
    (hbusy : s.isProcessing = false) (hmr : s.maxRetries = 3) :
    ((processChunk cid ic ls c).2 ≠ [] →
      (processChunk cid ic ls c).1.replyIdx = ls.replyIdx + 1) ∧
    ((processChunk cid ic ls c).2 = [] →
      (processChunk cid ic ls c).1.replyIdx = ls.replyIdx) ∧
    (completion s text ic
        [⟨[], some e1⟩, ⟨[], some e2⟩, ⟨[], some e3⟩] role).state.partialResponseIndex =
      s.partialResponseIndex ∧
    (completion s text ic
        [⟨[], some e1⟩, ⟨[], some e2⟩, ⟨[], some e3⟩] role).events =
      [Event.error e3,
       Event.gptreply ⟨s.partialResponseIndex, fallbackText, s.callSid⟩ ic] ∧
    s.partialResponseIndex ≤
      (completion s text2 ic2 attempts2 role2).state.partialResponseIndex ∧
    (resetContext s).partialResponseIndex = 0 := by
  have hex := completion_exhausted s text ic e1 e2 e3 role hbusy hmr
  refine ⟨?_, ?_, ?_, ?_, completion_replyIdx_mono s text2 ic2 attempts2 role2, rfl⟩
  · unfold processChunk
    by_cases hcond : (boundaryHit c.content || c.finish == some "stop") = true
    · rw [if_pos hcond]
      exact fun _ => rfl
    · rw [if_neg hcond]
      exact fun h => absurd rfl h
  · unfold processChunk
    by_cases hcond : (boundaryHit c.content || c.finish == some "stop") = true
    · rw [if_pos hcond]
      exact fun h => absurd h (List.cons_ne_nil _ _)
    · rw [if_neg hcond]
      exact fun _ => rfl
  · rw [hex]
  · rw [hex]

/-- Witness for C7 (amended) at concrete inputs. -/
theorem replyIndex_behavior_witness :
    (initialState.isProcessing = false ∧ initialState.maxRetries = 3) ∧
    (((processChunk none 0 ⟨[], [], 5⟩ ⟨"x•".toList, none⟩).2 ≠ [] →
       (processChunk none 0 ⟨[], [], 5⟩ ⟨"x•".toList, none⟩).1.replyIdx = 5 + 1) ∧
     ((processChunk none 0 ⟨[], [], 5⟩ ⟨"x•".toList, none⟩).2 = [] →
       (processChunk none 0 ⟨[], [], 5⟩ ⟨"x•".toList, none⟩).1.replyIdx = 5) ∧
     (completion initialState "a".toList 0
        [⟨[], some "e"⟩, ⟨[], some "e"⟩, ⟨[], some "e"⟩]
        "user").state.partialResponseIndex = initialState.partialResponseIndex ∧
     (completion initialState "a".toList 0
        [⟨[], some "e"⟩, ⟨[], some "e"⟩, ⟨[], some "e"⟩] "user").events =
      [Event.error "e",
       Event.gptreply ⟨initialState.partialResponseIndex, fallbackText,
         initialState.callSid⟩ 0] ∧
     initialState.partialResponseIndex ≤
      (completion initialState "b".toList 1 [] "user").state.partialResponseIndex ∧
     (resetContext initialState).partialResponseIndex = 0) :=
  ⟨⟨rfl, rfl⟩, replyIndex_behavior none 0 ⟨[], [], 5⟩ ⟨"x•".toList, none⟩
    initialState "a".toList "b".toList 1 "e" "e" "e" "user" "user" [] rfl rfl⟩

end Yabble
